import Mathlib

/-!
Verification of the `hollow` proc-macro attribute (src/lib.rs).

The source operates on `proc_macro::TokenStream`, a sequence of
`TokenTree`s.  A `TokenTree` is either a leaf (`Ident`, `Punct`,
`Literal`) or a `Group` of further tokens tagged with a `Delimiter`.
We embed streams as `List TokenTree` and panics as `Except.error`.
-/

/-- Delimiter kinds of `proc_macro::Delimiter`. -/
inductive Delimiter where
  | parenthesis
  | brace
  | bracket
  | invisible
  deriving DecidableEq, Repr

/-- Shallow embedding of `proc_macro::TokenTree`: leaves carry their
literal textual form (`Ident`/`Literal` a string, `Punct` its char),
a `Group` carries a delimiter kind and its content stream. -/
inductive TokenTree where
  | ident (text : String)
  | punct (ch : Char)
  | literal (text : String)
  | group (delim : Delimiter) (stream : List TokenTree)

/-- The panics `hollow` can raise while interpreting the attribute
argument (src/lib.rs lines 44-52): the `panic!("invalid attr argument")`
of the two failed `let ... else` patterns, and the assertion failures of
`assert_eq!("value", &next.to_string())` and
`assert_eq!('=', next.as_char())`, each recording expected vs actual. -/
inductive HollowPanic where
  | invalidAttrArgument
  | assertEqStr (expected actual : String)
  | assertEqChar (expected actual : Char)
  deriving DecidableEq, Repr

/-- The token stream of `"Default::default()".parse()` (src/lib.rs
line 42): identifier `Default`, the two punctuation characters of `::`,
identifier `default`, and an empty parenthesis group. -/
def defaultBody : List TokenTree :=
  [TokenTree.ident "Default", TokenTree.punct ':', TokenTree.punct ':',
   TokenTree.ident "default", TokenTree.group Delimiter.parenthesis []]

/-- The `body_tokens` computation of `hollow` (src/lib.rs lines 41-54):
empty attribute gives the default-construction tokens; otherwise the
first token must be an `Ident` (else `panic!("invalid attr argument")`),
its text must equal `"value"` (else the `assert_eq!` fails), the second
token must be a `Punct` (else the same panic), its char must be `'='`
(else the second `assert_eq!` fails), and the remaining iterator is
collected as the body. -/
def interpretAttr : List TokenTree → Except HollowPanic (List TokenTree)
  | [] => Except.ok defaultBody
  | first :: rest =>
    match first with
    | TokenTree.ident text =>
      if text = "value" then
        match rest with
        | [] => Except.error HollowPanic.invalidAttrArgument
        | second :: remaining =>
          match second with
          | TokenTree.punct ch =>
            if ch = '=' then Except.ok remaining
            else Except.error (HollowPanic.assertEqChar '=' ch)
          | _ => Except.error HollowPanic.invalidAttrArgument
      else Except.error (HollowPanic.assertEqStr "value" text)
    | _ => Except.error HollowPanic.invalidAttrArgument

/-- The scan loop of `hollow` (src/lib.rs lines 68-76): walk the item's
top-level tokens in order, pushing each into the output; a `Group` whose
delimiter is `Brace` stops the loop and is not pushed; any other group,
or any leaf, is pushed unchanged. -/
def scanLoop : List TokenTree → List TokenTree
  | [] => []
  | TokenTree.group delim stream :: rest =>
    match delim with
    | Delimiter.brace => []
    | _ => TokenTree.group delim stream :: scanLoop rest
  | other :: rest => other :: scanLoop rest

/-- The rewriting part of `hollow` (src/lib.rs lines 68-80): the scanned
prefix followed by the one synthesized group
`Group::new(Delimiter::Brace, body_tokens)`. -/
def rewriteItem (item body : List TokenTree) : List TokenTree :=
  scanLoop item ++ [TokenTree.group Delimiter.brace body]

/-- The whole of `hollow` (src/lib.rs lines 40-82): interpret the
attribute argument into the replacement body (propagating its panics),
then rewrite the item with it. -/
def hollow (attr item : List TokenTree) : Except HollowPanic (List TokenTree) :=
  (interpretAttr attr).map (fun body => rewriteItem item body)

/-- A token is a top-level brace-delimited group. -/
def isBraceGroup : TokenTree → Bool
  | TokenTree.group Delimiter.brace _ => true
  | _ => false

/-- A token is a group of any delimiter kind. -/
def isGroup : TokenTree → Bool
  | TokenTree.group _ _ => true
  | _ => false

/-- A token is a leaf identifier (matches `TokenTree::Ident(_)`). -/
def isIdent : TokenTree → Bool
  | TokenTree.ident _ => true
  | _ => false

/-- A token is a leaf punctuation (matches `TokenTree::Punct(_)`). -/
def isPunct : TokenTree → Bool
  | TokenTree.punct _ => true
  | _ => false

/- Basic facts about the scan loop. -/

theorem scanLoop_eq_takeWhile (l : List TokenTree) :
    scanLoop l = l.takeWhile (fun t => ! isBraceGroup t) := by
  induction l with
  | nil => rfl
  | cons t rest ih =>
    cases t with
    | group delim stream =>
      cases delim <;> simp [scanLoop, isBraceGroup, List.takeWhile, ih]
    | ident text => simp [scanLoop, isBraceGroup, List.takeWhile, ih]
    | punct ch => simp [scanLoop, isBraceGroup, List.takeWhile, ih]
    | literal text => simp [scanLoop, isBraceGroup, List.takeWhile, ih]

theorem scanLoop_eq_take_findIdx (l : List TokenTree) :
    scanLoop l = l.take (l.findIdx isBraceGroup) := by
  induction l with
  | nil => rfl
  | cons t rest ih =>
    cases ht : isBraceGroup t with
    | true =>
      cases t with
      | group delim stream =>
        cases delim <;> simp_all [scanLoop, isBraceGroup, List.findIdx_cons]
      | ident text => simp [isBraceGroup] at ht
      | punct ch => simp [isBraceGroup] at ht
      | literal text => simp [isBraceGroup] at ht
    | false =>
      cases t with
      | group delim stream =>
        cases delim <;> simp_all [scanLoop, isBraceGroup, List.findIdx_cons]
      | ident text => simp_all [scanLoop, isBraceGroup, List.findIdx_cons]
      | punct ch => simp_all [scanLoop, isBraceGroup, List.findIdx_cons]
      | literal text => simp_all [scanLoop, isBraceGroup, List.findIdx_cons]

theorem scanLoop_no_braceGroup (l : List TokenTree) :
    ∀ t ∈ scanLoop l, isBraceGroup t = false := by
  intro t ht
  rw [scanLoop_eq_takeWhile] at ht
  have := List.mem_takeWhile_imp ht
  simpa using this

theorem scanLoop_of_all_not_brace (l : List TokenTree)
    (h : l.all (fun t => ! isBraceGroup t) = true) :
    scanLoop l = l := by
  rw [scanLoop_eq_takeWhile]
  exact List.takeWhile_eq_self_iff.mpr (by simpa [List.all_eq_true] using h)

/- Claim theorems. -/

/-- C1: for every item token sequence containing at least one top-level
brace-delimited group, the rewriter's output with its final synthesized
brace group removed equals, token for token and in order, the part of
the input preceding (and excluding) its first top-level brace group. -/
theorem C1_pre_body_tokens_preserved (item body : List TokenTree)
    (h : item.any isBraceGroup = true) :
    (rewriteItem item body).dropLast
      = item.takeWhile (fun t => ! isBraceGroup t) := by
  rw [rewriteItem, scanLoop_eq_takeWhile, List.dropLast_concat]

/-- Witness for C1 at `fn f () { x }` with body `1`. -/
theorem C1_pre_body_tokens_preserved_witness :
    ([TokenTree.ident "fn", TokenTree.ident "f",
      TokenTree.group Delimiter.parenthesis [],
      TokenTree.group Delimiter.brace [TokenTree.ident "x"]].any
        isBraceGroup = true) ∧
    (rewriteItem
        [TokenTree.ident "fn", TokenTree.ident "f",
         TokenTree.group Delimiter.parenthesis [],
         TokenTree.group Delimiter.brace [TokenTree.ident "x"]]
        [TokenTree.literal "1"]).dropLast
      = [TokenTree.ident "fn", TokenTree.ident "f",
         TokenTree.group Delimiter.parenthesis [],
         TokenTree.group Delimiter.brace [TokenTree.ident "x"]].takeWhile
          (fun t => ! isBraceGroup t) :=
  ⟨rfl, C1_pre_body_tokens_preserved
    [TokenTree.ident "fn", TokenTree.ident "f",
     TokenTree.group Delimiter.parenthesis [],
     TokenTree.group Delimiter.brace [TokenTree.ident "x"]]
    [TokenTree.literal "1"] rfl⟩

/-- C2 counterexample: for the item consisting of one parenthesis group
(and empty replacement body) the rewriter's output holds two top-level
groups, not exactly one: the copied parenthesis group and the
synthesized brace group. -/
theorem C2_counterexample_two_groups :
    ¬ ((rewriteItem [TokenTree.group Delimiter.parenthesis []]
        []).countP isGroup = 1) := by
  decide

/-- C2 amended: for every item token sequence and every replacement
body, the rewriter's output contains exactly one top-level
brace-delimited group (non-brace groups of the input are copied, so
other group kinds may also appear), that group is the last token of the
output, and its contents equal the replacement body exactly. -/
theorem C2_amended_one_brace_group (item body : List TokenTree) :
    (rewriteItem item body).countP isBraceGroup = 1 ∧
    (rewriteItem item body).getLast?
      = some (TokenTree.group Delimiter.brace body) := by
  constructor
  · rw [rewriteItem, List.countP_append]
    have h0 : (scanLoop item).countP isBraceGroup = 0 := by
      rw [List.countP_eq_zero]
      intro t ht
      simp [scanLoop_no_braceGroup item t ht]
    simp [h0, List.countP_cons, isBraceGroup]
  · simp [rewriteItem]

/-- C3: the rewriter's output always decomposes as a run of tokens none
of which is a brace-delimited group, followed by one trailing
brace-delimited group whose contents are exactly the replacement body —
so the trailing group exists, is unique among top-level brace groups,
and carries the replacement body, whatever the input held. -/
theorem C3_trailing_brace_group (item body : List TokenTree) :
    ∃ pre, rewriteItem item body
        = pre ++ [TokenTree.group Delimiter.brace body] ∧
      ∀ t ∈ pre, isBraceGroup t = false :=
  ⟨scanLoop item, rfl, scanLoop_no_braceGroup item⟩

/-- C4: when the item holds more than one top-level brace-delimited
group, only the first one (at index `findIdx isBraceGroup`, a position
inside the list) acts as the body: the output is exactly the tokens
before that position plus the synthesized group, so neither the first
brace group nor any token at a later position is carried over. -/
theorem C4_first_brace_group_wins (item body : List TokenTree)
    (h : 2 ≤ item.countP isBraceGroup) :
    rewriteItem item body
      = item.take (item.findIdx isBraceGroup)
        ++ [TokenTree.group Delimiter.brace body] ∧
    (rewriteItem item body).length = item.findIdx isBraceGroup + 1 ∧
    item.findIdx isBraceGroup < item.length := by
  have hex : ∃ x ∈ item, isBraceGroup x = true :=
    List.countP_pos_iff.mp (lt_of_lt_of_le (by decide) h)
  have hlt : item.findIdx isBraceGroup < item.length :=
    List.findIdx_lt_length_of_exists hex
  refine ⟨?_, ?_, hlt⟩
  · rw [rewriteItem, scanLoop_eq_take_findIdx]
  · rw [rewriteItem, scanLoop_eq_take_findIdx]
    simp [List.length_take, Nat.min_eq_left (Nat.le_of_lt hlt)]

/-- Witness for C4 at `a { } b { c }` with body `0`. -/
theorem C4_first_brace_group_wins_witness :
    (2 ≤ [TokenTree.ident "a", TokenTree.group Delimiter.brace [],
      TokenTree.ident "b",
      TokenTree.group Delimiter.brace [TokenTree.ident "c"]].countP
        isBraceGroup) ∧
    (rewriteItem
        [TokenTree.ident "a", TokenTree.group Delimiter.brace [],
         TokenTree.ident "b",
         TokenTree.group Delimiter.brace [TokenTree.ident "c"]]
        [TokenTree.literal "0"]
      = [TokenTree.ident "a", TokenTree.group Delimiter.brace [],
         TokenTree.ident "b",
         TokenTree.group Delimiter.brace [TokenTree.ident "c"]].take
          ([TokenTree.ident "a", TokenTree.group Delimiter.brace [],
            TokenTree.ident "b",
            TokenTree.group Delimiter.brace [TokenTree.ident "c"]].findIdx
              isBraceGroup)
        ++ [TokenTree.group Delimiter.brace [TokenTree.literal "0"]] ∧
     (rewriteItem
        [TokenTree.ident "a", TokenTree.group Delimiter.brace [],
         TokenTree.ident "b",
         TokenTree.group Delimiter.brace [TokenTree.ident "c"]]
        [TokenTree.literal "0"]).length
      = [TokenTree.ident "a", TokenTree.group Delimiter.brace [],
         TokenTree.ident "b",
         TokenTree.group Delimiter.brace [TokenTree.ident "c"]].findIdx
          isBraceGroup + 1 ∧
     [TokenTree.ident "a", TokenTree.group Delimiter.brace [],
      TokenTree.ident "b",
      TokenTree.group Delimiter.brace [TokenTree.ident "c"]].findIdx
        isBraceGroup
      < [TokenTree.ident "a", TokenTree.group Delimiter.brace [],
         TokenTree.ident "b",
         TokenTree.group Delimiter.brace [TokenTree.ident "c"]].length) :=
  ⟨by decide, C4_first_brace_group_wins
    [TokenTree.ident "a", TokenTree.group Delimiter.brace [],
     TokenTree.ident "b",
     TokenTree.group Delimiter.brace [TokenTree.ident "c"]]
    [TokenTree.literal "0"] (by decide)⟩

/-- C5: when the item holds no top-level brace-delimited group at all,
the rewriter copies the whole input unchanged and in order and still
appends the synthesized brace group with the replacement body. -/
theorem C5_no_brace_group_copies_all (item body : List TokenTree)
    (h : item.all (fun t => ! isBraceGroup t) = true) :
    rewriteItem item body
      = item ++ [TokenTree.group Delimiter.brace body] := by
  rw [rewriteItem, scanLoop_of_all_not_brace item h]

/-- Witness for C5 at the bodyless `fn f ( ) ;` with body `1`. -/
theorem C5_no_brace_group_copies_all_witness :
    ([TokenTree.ident "fn", TokenTree.ident "f",
      TokenTree.group Delimiter.parenthesis [], TokenTree.punct ';'].all
        (fun t => ! isBraceGroup t) = true) ∧
    rewriteItem
        [TokenTree.ident "fn", TokenTree.ident "f",
         TokenTree.group Delimiter.parenthesis [], TokenTree.punct ';']
        [TokenTree.literal "1"]
      = [TokenTree.ident "fn", TokenTree.ident "f",
         TokenTree.group Delimiter.parenthesis [], TokenTree.punct ';']
        ++ [TokenTree.group Delimiter.brace [TokenTree.literal "1"]] :=
  ⟨rfl, C5_no_brace_group_copies_all
    [TokenTree.ident "fn", TokenTree.ident "f",
     TokenTree.group Delimiter.parenthesis [], TokenTree.punct ';']
    [TokenTree.literal "1"] rfl⟩

/-- C6: an empty attribute-argument sequence always yields the fixed
tokens of the default-construction call `Default::default()`, for every
item and with no dependence on any other state. -/
theorem C6_empty_attr_default (item : List TokenTree) :
    interpretAttr [] = Except.ok defaultBody ∧
    hollow [] item = Except.ok (rewriteItem item defaultBody) :=
  ⟨rfl, rfl⟩

/-- C7: when the attribute argument begins with identifier `value`
followed by punctuation `=`, interpretation succeeds with every
remaining token unchanged and in order; in particular
`value = 42` yields `42`. -/
theorem C7_value_eq_rest (rest : List TokenTree) :
    interpretAttr (TokenTree.ident "value" :: TokenTree.punct '=' :: rest)
      = Except.ok rest ∧
    interpretAttr [TokenTree.ident "value", TokenTree.punct '=',
        TokenTree.literal "42"]
      = Except.ok [TokenTree.literal "42"] :=
  ⟨rfl, rfl⟩

/-- C8 counterexample: `value +` does not begin with an identifier
followed by the `=` punctuation, yet it does not fail with the
`invalid attr argument` panic: the second `assert_eq!` fires instead,
an assertion-style diagnostic naming expected `=` vs actual `+`. -/
theorem C8_counterexample_punct_assert :
    interpretAttr [TokenTree.ident "value", TokenTree.punct '+']
      = Except.error (HollowPanic.assertEqChar '=' '+') ∧
    interpretAttr [TokenTree.ident "value", TokenTree.punct '+']
      ≠ Except.error HollowPanic.invalidAttrArgument := by
  refine ⟨rfl, ?_⟩
  simp [interpretAttr]

/-- C8 amended: a non-empty attribute argument fails with the
`invalid attr argument` panic exactly when its first token is not a
leaf identifier, or its first token is the identifier `value` and the
second token is missing or is not a leaf punctuation.  A punctuation
second token other than `=` instead fails with the assertion-style
diagnostic naming expected `=` vs the actual character, and a first
identifier other than `value` fails with the keyword assertion. -/
theorem C8_amended_malformed_exactly_when (first : TokenTree)
    (rest : List TokenTree) :
    (interpretAttr (first :: rest)
        = Except.error HollowPanic.invalidAttrArgument
      ↔ (isIdent first = false ∨
          (first = TokenTree.ident "value" ∧
            (rest = [] ∨ ∃ s t, rest = s :: t ∧ isPunct s = false)))) := by
  cases first with
  | ident text =>
    by_cases hv : text = "value"
    · subst hv
      cases rest with
      | nil => simp [interpretAttr, isIdent]
      | cons s t =>
        cases s with
        | punct ch =>
          by_cases hc : ch = '='
          · subst hc
            simp [interpretAttr, isIdent, isPunct]
          · simp [interpretAttr, isIdent, isPunct, hc]
        | ident text2 => simp [interpretAttr, isIdent, isPunct]
        | literal text2 => simp [interpretAttr, isIdent, isPunct]
        | group delim stream => simp [interpretAttr, isIdent, isPunct]
    · simp [interpretAttr, isIdent, hv]
  | punct ch => simp [interpretAttr, isIdent]
  | literal text => simp [interpretAttr, isIdent]
  | group delim stream => simp [interpretAttr, isIdent]

/-- C9: any attribute argument beginning with a leaf identifier whose
text differs from `value` fails with the keyword assertion, the
assertion-style diagnostic naming the expected text `value` and the
actual identifier text; in particular `other = 42` fails so. -/
theorem C9_unexpected_keyword (text : String) (rest : List TokenTree)
    (h : text ≠ "value") :
    interpretAttr (TokenTree.ident text :: rest)
      = Except.error (HollowPanic.assertEqStr "value" text) ∧
    interpretAttr [TokenTree.ident "other", TokenTree.punct '=',
        TokenTree.literal "42"]
      = Except.error (HollowPanic.assertEqStr "value" "other") := by
  refine ⟨?_, rfl⟩
  simp [interpretAttr, h]

/-- Witness for C9 at the argument `other = 42`. -/
theorem C9_unexpected_keyword_witness :
    "other" ≠ "value" ∧
    (interpretAttr (TokenTree.ident "other"
        :: [TokenTree.punct '=', TokenTree.literal "42"])
      = Except.error (HollowPanic.assertEqStr "value" "other") ∧
     interpretAttr [TokenTree.ident "other", TokenTree.punct '=',
        TokenTree.literal "42"]
      = Except.error (HollowPanic.assertEqStr "value" "other")) :=
  ⟨by decide, C9_unexpected_keyword "other"
    [TokenTree.punct '=', TokenTree.literal "42"] (by decide)⟩

/-- C10: the keyword check runs before the second token is examined:
with a first leaf identifier whose text is not `value`, interpretation
fails with the keyword assertion whatever follows — also when nothing
follows, or when the second token is not the `=` punctuation — and that
failure is not the `invalid attr argument` panic. -/
theorem C10_keyword_checked_before_second_token (text : String)
    (rest : List TokenTree) (h : text ≠ "value") :
    interpretAttr (TokenTree.ident text :: rest)
      = Except.error (HollowPanic.assertEqStr "value" text) ∧
    interpretAttr [TokenTree.ident text]
      = Except.error (HollowPanic.assertEqStr "value" text) ∧
    interpretAttr (TokenTree.ident text :: TokenTree.literal "x" :: rest)
      = Except.error (HollowPanic.assertEqStr "value" text) ∧
    HollowPanic.assertEqStr "value" text
      ≠ HollowPanic.invalidAttrArgument := by
  refine ⟨?_, ?_, ?_, ?_⟩ <;> simp [interpretAttr, h]

/-- Witness for C10 at the identifier `other` with nothing after it. -/
theorem C10_keyword_checked_before_second_token_witness :
    "other" ≠ "value" ∧
    (interpretAttr (TokenTree.ident "other" :: ([] : List TokenTree))
      = Except.error (HollowPanic.assertEqStr "value" "other") ∧
     interpretAttr [TokenTree.ident "other"]
      = Except.error (HollowPanic.assertEqStr "value" "other") ∧
     interpretAttr (TokenTree.ident "other"
        :: TokenTree.literal "x" :: ([] : List TokenTree))
      = Except.error (HollowPanic.assertEqStr "value" "other") ∧
     HollowPanic.assertEqStr "value" "other"
      ≠ HollowPanic.invalidAttrArgument) :=
  ⟨by decide, C10_keyword_checked_before_second_token "other" [] (by decide)⟩
